import Mathlib

/-!
Verification of the geometric core of agent.py (TG-GAT): the view-transform
engine `move_view_corners`, the oracle synthesizer `teacher_action` with its
`compute_iou` progress metric, the loss-accumulation guards and the rollout
step loop.  Machine reals replace IEEE floats; the shapely library calls are
modelled as an abstract backend record.
-/

namespace TGGAT

/-- A 2D geographic point, as the numpy length-2 arrays in agent.py. -/
abbrev Pt : Type := ℝ × ℝ

/-- Componentwise vector-times-scalar, numpy `vec * change`. -/
noncomputable def pmul (p : Pt) (r : ℝ) : Pt := (p.1 * r, p.2 * r)

/-- Componentwise vector-by-scalar division, numpy `vec / norm`. -/
noncomputable def pdiv (p : Pt) (r : ℝ) : Pt := (p.1 / r, p.2 / r)

/-- Euclidean norm of a 2-vector, `np.linalg.norm`. -/
noncomputable def vnorm (p : Pt) : ℝ := Real.sqrt (p.1 ^ 2 + p.2 ^ 2)

/-- The four corners of a view window (agent.py passes 4x2 arrays,
corner order as in the source). -/
structure Corners where
  p0 : Pt
  p1 : Pt
  p2 : Pt
  p3 : Pt

def cornersList (c : Corners) : List Pt := [c.p0, c.p1, c.p2, c.p3]

/-- Corner-wise mean, `np.mean(corners, axis=0)`. -/
noncomputable def centroid (c : Corners) : Pt := pdiv (c.p0 + c.p1 + c.p2 + c.p3) 4

/-- Python float modulo for the positive moduli used in agent.py
(result carries the divisor's sign). -/
noncomputable def rmod (x y : ℝ) : ℝ := x - y * (⌊x / y⌋ : ℝ)

/-- Python `round` and `np.round`: round half to even. -/
noncomputable def pyRound (x : ℝ) : ℤ :=
  if x - ⌊x⌋ < 1 / 2 then ⌊x⌋
  else if 1 / 2 < x - ⌊x⌋ then ⌊x⌋ + 1
  else if Even ⌊x⌋ then ⌊x⌋ else ⌊x⌋ + 1

/-- `get_direction` (agent.py lines 77-95): compass angle of the vector
start→stop, via `np.arctan` with the hand-written 1.57 half-pi constant;
`np.sign(vec[0]) == 1` holds exactly when the first component is positive. -/
noncomputable def get_direction (start stop : Pt) : ℝ :=
  let vec := stop - start
  let a :=
    if 0 < vec.2 then Real.arctan (vec.1 / vec.2) / 1.57 * 90
    else if vec.2 < 0 then Real.arctan (vec.1 / vec.2) / 1.57 * 90 + 180
    else if 0 < vec.1 then 90 else 270
  rmod (360 - a + 90) 360

/-- Line 301 of agent.py: the current direction recomputed from the corners,
`round(get_direction(mean(corners), (corners[0]+corners[1])/2)) % 360`. -/
noncomputable def curDir (c : Corners) : ℤ :=
  pyRound (get_direction (centroid c) (pdiv (c.p0 + c.p1) 2)) % 360

/-- Lines 302-304: `angle += input_current_direction` whenever an asserted
current direction is given and differs from the recomputed one by more
than 2 degrees.  Note the source adds the whole asserted direction, not
the printed discrepancy. -/
noncomputable def correctedAngle (angle : ℝ) (inputDir : Option ℝ) (cd : ℤ) : ℝ :=
  match inputDir with
  | none => angle
  | some d => if 2 < |d - (cd : ℝ)| then angle + d else angle

/-- `change_corner` (agent.py lines 286-299): push every corner outward along
its two adjacent edge directions by `change`. -/
noncomputable def change_corner (c : Corners) (change : ℝ) : Corners where
  p0 := c.p0 + pmul (pdiv (c.p0 - c.p1) (vnorm (c.p1 - c.p0))) change
          + pmul (pdiv (c.p0 - c.p3) (vnorm (c.p3 - c.p0))) change
  p1 := c.p1 + pmul (pdiv (c.p1 - c.p0) (vnorm (c.p1 - c.p0))) change
          + pmul (pdiv (c.p1 - c.p2) (vnorm (c.p2 - c.p1))) change
  p2 := c.p2 + pmul (pdiv (c.p2 - c.p3) (vnorm (c.p2 - c.p3))) change
          + pmul (pdiv (c.p2 - c.p1) (vnorm (c.p2 - c.p1))) change
  p3 := c.p3 + pmul (pdiv (c.p3 - c.p2) (vnorm (c.p2 - c.p3))) change
          + pmul (pdiv (c.p3 - c.p0) (vnorm (c.p3 - c.p0))) change

/-- `move_view_corner_forward` (agent.py lines 274-280): translate each corner
along its front-back edge direction by `change`. -/
noncomputable def move_view_corner_forward (c : Corners) (change : ℝ) : Corners where
  p0 := c.p0 + pmul (pdiv (c.p0 - c.p3) (vnorm (c.p3 - c.p0))) change
  p1 := c.p1 + pmul (pdiv (c.p1 - c.p2) (vnorm (c.p2 - c.p1))) change
  p2 := c.p2 + pmul (pdiv (c.p1 - c.p2) (vnorm (c.p2 - c.p1))) change
  p3 := c.p3 + pmul (pdiv (c.p0 - c.p3) (vnorm (c.p3 - c.p0))) change

/-- `rotation_anticlock` (agent.py lines 282-284), with the source's literal
3.14159 in place of pi. -/
noncomputable def rotation_anticlock (theta : ℝ) (p : Pt) : Pt :=
  (Real.cos (theta / 180 * 3.14159) * p.1 + Real.sin (theta / 180 * 3.14159) * p.2,
   -Real.sin (theta / 180 * 3.14159) * p.1 + Real.cos (theta / 180 * 3.14159) * p.2)

/-- Lines 326-336: rotate the quadrilateral about its centroid by `-angle`. -/
noncomputable def rotateStage (angle : ℝ) (c : Corners) : Corners :=
  let m := centroid c
  ⟨m + rotation_anticlock (-angle) (c.p0 - m),
   m + rotation_anticlock (-angle) (c.p1 - m),
   m + rotation_anticlock (-angle) (c.p2 - m),
   m + rotation_anticlock (-angle) (c.p3 - m)⟩

/-- The strict bounds test of lines 316, 337, 350. -/
def inBounds (bl tr p : Pt) : Prop :=
  bl.1 < p.1 ∧ p.1 < tr.1 ∧ bl.2 < p.2 ∧ p.2 < tr.2

noncomputable def inBoundsB (bl tr p : Pt) : Bool := @decide (inBounds bl tr p) (Classical.dec _)

/-- The collect-until-first-failure loops of lines 314-320, 334-341, 348-353:
corners are appended while inside the bounds and the loop breaks at the
first corner outside, so fewer than 4 survivors means some corner escaped. -/
noncomputable def keepInBounds (bl tr : Pt) (l : List Pt) : List Pt :=
  l.takeWhile (inBoundsB bl tr)

/-- All four corners strictly inside the map bounds. -/
def allIn (bl tr : Pt) (c : Corners) : Prop :=
  inBounds bl tr c.p0 ∧ inBounds bl tr c.p1 ∧ inBounds bl tr c.p2 ∧ inBounds bl tr c.p3

/-- Line 310: the zoom step size derived from the target altitude and the
current reference edge length under the 11.13e4 projection constant. -/
noncomputable def zoomChange (c : Corners) (altitude : ℝ) : ℝ :=
  0.5 * (altitude - vnorm (c.p1 - c.p0) * 11.13 * 10000) / 11.13 / 10000

/-- `move_view_corners` (agent.py lines 273-357): recompute the direction,
fold in an asserted direction, then zoom, rotate and move, each stage
rejected wholesale if any of its corners leaves the bounds. -/
noncomputable def moveViewCorners (c : Corners) (angle distance altitude : ℝ)
    (bl tr : Pt) (inputDir : Option ℝ) : Corners × ℝ :=
  let cd := curDir c
  let a := correctedAngle angle inputDir cd
  let zoomed := change_corner c (zoomChange c altitude)
  if (keepInBounds bl tr (cornersList zoomed)).length ≠ 4 then (c, (cd : ℝ))
  else
    let rotated := rotateStage a zoomed
    if (keepInBounds bl tr (cornersList rotated)).length ≠ 4 then (zoomed, (cd : ℝ))
    else
      let moved := move_view_corner_forward rotated distance
      if (keepInBounds bl tr (cornersList moved)).length ≠ 4 then
        (rotated, rmod ((cd : ℝ) + a) 360)
      else (moved, rmod ((cd : ℝ) + a) 360)

/-! ## compute_iou and the oracle action synthesizer -/

/-- Abstract model of the shapely library calls used by agent.py.
`intersects a b` is `Polygon(a).convex_hull.intersects(Polygon(b).convex_hull)`,
`interArea a b` the area of their intersection, `hullArea a b` the area of
`MultiPoint(concatenate(a, b)).convex_hull` over the 8 combined vertices, and
`polyLineInter c line` the coordinate list collected from
`Polygon(c).intersection(LineString(line))`. -/
structure ShapelyModel where
  intersects : Corners → Corners → Bool
  interArea : Corners → Corners → ℝ
  hullArea : Corners → Corners → ℝ
  polyLineInter : Corners → List Pt → List Pt

/-- `compute_iou` (agent.py lines 38-70): 0 for non-intersecting hulls,
otherwise intersection area over the convex-hull area of the combined vertex
set.  The source's `if union_area == 0: iou = 0` is dead code — the next
line overwrites `iou` unconditionally — and the `except TopologicalError`
path concerns failures internal to the external library, not modelled. -/
noncomputable def compute_iou (g : ShapelyModel) (a b : Corners) : ℝ :=
  if g.intersects a b then g.interArea a b / g.hullArea a b else 0

/-- The dynamic type stored in the oracle action slot `teacher_a[i][0]`: the
string initializer of line 367, a numpy float array, or a plain int — the
type the guard of line 611 compares against and which is never stored. -/
inductive Slot where
  | strInit : Slot
  | arr : Pt → Slot
  | intVal : ℤ → Slot

/-- The guard `type(target[i][0]) != type(-100)` of agent.py line 611. -/
def notIntGuard : Slot → Bool
  | .intVal _ => false
  | _ => true

/-- The two feedback regimes selected by `self.feedback`. -/
inductive Feedback where
  | teacher
  | student

/-- Placeholder window for out-of-range list reads that cannot occur. -/
def c00 : Corners := ⟨(0, 0), (0, 0), (0, 0), (0, 0)⟩

open Classical in
/-- Lines 377-383: scan the reference path from the last window backward,
keeping the index whose centroid is closer (by more than 1e-5) to the current
position than any seen so far; `none` when no distance ever beats the 1000
initializer, in which case `closest_step_index` is unbound and the source
raises NameError. -/
noncomputable def pickClosest (pos : Pt) (path : List Corners) : Option ℕ :=
  ((List.range path.length).reverse.foldl (fun acc j =>
      if vnorm (centroid (path.getD j c00) - pos) + 0.00001 < acc.1 then
        (vnorm (centroid (path.getD j c00) - pos), some j)
      else acc)
    ((1000 : ℝ), (none : Option ℕ))).2

open Classical in
/-- Lines 420-426: keep the intersection point strictly closer to the goal
centroid than any seen so far, starting from `min_distance = 1`; `none` when
no point lies within distance 1 of the goal, in which case the slot keeps
its string initializer. -/
noncomputable def pickTarget (pts : List Pt) (goal : Pt) : Option Pt :=
  (pts.foldl (fun acc x =>
      if vnorm (x - goal) < acc.1 then (vnorm (x - goal), some x) else acc)
    ((1 : ℝ), (none : Option Pt))).2

/-- Lines 395-415: the target line's intersection points with the current
window polygon — the direct segment to the goal under the student regime, the
full reference-centroid polyline under the teacher regime with a fallback to
the direct segment when that intersection is empty. -/
noncomputable def intersectionPts (g : ShapelyModel) (fb : Feedback) (c : Corners)
    (path : List Corners) (pos goal : Pt) : List Pt :=
  match fb with
  | .student => g.polyLineInter c [pos, goal]
  | .teacher =>
    match g.polyLineInter c (path.map centroid) with
    | [] => g.polyLineInter c [pos, goal]
    | pts => pts

/-- Lines 460-462: divide both coefficients by `max(abs(rx), abs(ry), 1)`. -/
noncomputable def clampPair (u : Pt) : Pt :=
  (u.1 / max (max |u.1| |u.2|) 1, u.2 / max (max |u.1| |u.2|) 1)

open Classical in
/-- `np.linalg.solve` on the 2x2 system of lines 451-453, where
`A = [[net_x[0], net_y[0]], [net_x[1], net_y[1]]]`; `none` models the
LinAlgError raised on a singular matrix. -/
noncomputable def solve2 (nx ny : ℤ × ℤ) (b : Pt) : Option Pt :=
  let det : ℝ := (nx.1 : ℝ) * (ny.2 : ℝ) - (ny.1 : ℝ) * (nx.2 : ℝ)
  if det = 0 then none
  else some (((ny.2 : ℝ) * b.1 - (ny.1 : ℝ) * b.2) / det,
             ((nx.1 : ℝ) * b.2 - (nx.2 : ℝ) * b.1) / det)

open Classical in
/-- One sample of `teacher_action` (agent.py lines 359-466): progress from
`compute_iou` against the final reference window, altitude from the closest
reference window, the zero-array terminal sentinel when ended or progress
exceeds 0.5, otherwise the clamped solution of the oblique-basis 2x2 system
at the picked intersection point.  `none` models the run-time errors of the
source: IndexError on an empty reference path, NameError when the altitude
scan never updates, TypeError when the slot still holds the string
initializer at the subtraction of line 447, and LinAlgError from a singular
basis matrix. -/
noncomputable def teacherAction (g : ShapelyModel) (fb : Feedback) (c : Corners)
    (path : List Corners) (ended : Bool) : Option (Slot × ℝ × ℝ) :=
  match path.getLast? with
  | none => none
  | some fin =>
    let pos := centroid c
    let pr := compute_iou g c fin
    match pickClosest pos path with
    | none => none
    | some ci =>
      let gci := path.getD ci c00
      let alt := (vnorm (gci.p0 - gci.p1) * 11.13 * 10000 - 40) / (400 - 40)
      if ended = true ∨ 0.5 < pr then some (.arr (0, 0), alt, pr)
      else
        let goal := centroid fin
        match pickTarget (intersectionPts g fb c path pos goal) goal with
        | none => none
        | some x =>
          let netNext := pmul (x - pos) 100000
          let netY : ℤ × ℤ := (pyRound (100000 * (pdiv (c.p0 + c.p1) 2 - pos).1),
                               pyRound (100000 * (pdiv (c.p0 + c.p1) 2 - pos).2))
          let netX : ℤ × ℤ := (pyRound (100000 * (pdiv (c.p1 + c.p2) 2 - pos).1),
                               pyRound (100000 * (pdiv (c.p1 + c.p2) 2 - pos).2))
          match solve2 netX netY netNext with
          | none => none
          | some r => some (.arr (clampPair r), alt, pr)

/-! ## Loss accumulation with NaN guards (rollout, lines 609-660) -/

/-- A float loss value: `none` stands for NaN, the unique value for which
the source's `x != x` test is true. -/
abbrev WithNaN : Type := Option ℝ

/-- Float addition: a NaN operand makes the sum NaN. -/
noncomputable def nadd : WithNaN → WithNaN → WithNaN
  | some a, some b => some (a + b)
  | _, _ => none

/-- Float scalar multiple: a NaN operand yields NaN. -/
noncomputable def nmul (r : ℝ) : WithNaN → WithNaN
  | some a => some (r * a)
  | none => none

/-- Lines 609-619: the four per-sample regression terms are added to the
objective unconditionally; the `ml_loss != ml_loss` check afterwards only
prints. -/
noncomputable def addSampleLoss (ml t1 t2 t3 t4 : WithNaN) : WithNaN :=
  nadd (nadd (nadd (nadd ml t1) t2) t3) t4

/-- Lines 647-649: `ml_loss += 0.25 * (1*loss_cls + 3*loss_f1 + 1.5*loss_iou)`;
the NaN check afterwards only prints. -/
noncomputable def addBoxLoss (ml lCls lF1 lIou : WithNaN) : WithNaN :=
  nadd ml (nmul 0.25 (nadd (nadd (nmul 1 lCls) (nmul 3 lF1)) (nmul 1.5 lIou)))

/-- Lines 655-660: the NSS term is the only one actually excluded when it is
NaN — `if nss_loss != nss_loss: print(...) else: ml_loss += nss_w * nss_loss`. -/
noncomputable def addNssLoss (ml : WithNaN) (w : ℝ) (nss : WithNaN) : WithNaN :=
  match nss with
  | none => ml
  | some v => nadd ml (some (w * v))

/-! ## The rollout step loop (lines 534-747) -/

/-- The per-sample trajectory records; each list logs the step index `t` at
which an append to the corresponding source list happened. -/
structure TrajRec where
  actions : List ℕ
  gtActions : List ℕ
  gtProgress : List ℕ
  progress : List ℕ
  pathCorners : List ℕ

/-- Ended flags and trajectory records of one batch of `n` samples. -/
structure RollState (n : ℕ) where
  ended : Fin n → Bool
  traj : Fin n → TrajRec

/-- Lines 685-691: actions, gt_actions, gt_progress and progress are appended
only for samples whose ended flag is still false at that point. -/
def appendLog (t : ℕ) (e : Bool) (r : TrajRec) : TrajRec :=
  if e then r
  else ⟨r.actions ++ [t], r.gtActions ++ [t], r.gtProgress ++ [t],
        r.progress ++ [t], r.pathCorners⟩

open Classical in
/-- One iteration of the step loop: log the trajectory (lines 685-691), set
the ended flags from the effective progress and the step budget (lines
705-716), then append path_corners for the samples still running after the
update (lines 735-737). -/
noncomputable def rollStep (n K : ℕ) (prog : Fin n → ℝ) (t : ℕ)
    (s : RollState n) : RollState n :=
  let traj1 := fun i => appendLog t (s.ended i) (s.traj i)
  let ended1 := fun i => s.ended i || decide (0.5 < prog i) || decide (t = K - 1)
  let traj2 := fun i => if ended1 i then traj1 i else
    ⟨(traj1 i).actions, (traj1 i).gtActions, (traj1 i).gtProgress,
     (traj1 i).progress, (traj1 i).pathCorners ++ [t]⟩
  ⟨ended1, traj2⟩

/-- `for t in range(max_action_len)` (line 534) with the
`if ended.all(): break` of line 746: run the body, stop when every flag is
set, and return the final state with the number of iterations executed. -/
noncomputable def rollFrom (n K : ℕ) (prog : ℕ → Fin n → ℝ) :
    ℕ → ℕ → RollState n → RollState n × ℕ
  | 0, _, s => (s, 0)
  | r + 1, t, s =>
    let s1 := rollStep n K (prog t) t s
    if ∀ i, s1.ended i = true then (s1, 1)
    else ((rollFrom n K prog r (t + 1) s1).1, (rollFrom n K prog r (t + 1) s1).2 + 1)

/-- The whole step loop: budget K, starting at step 0. -/
noncomputable def rolloutLoop (n K : ℕ) (prog : ℕ → Fin n → ℝ) (s : RollState n) :
    RollState n × ℕ :=
  rollFrom n K prog K 0 s

/-! ## Basic lemmas about the view transform -/

lemma inBoundsB_true_iff (bl tr p : Pt) : inBoundsB bl tr p = true ↔ inBounds bl tr p := by
  simp [inBoundsB]

lemma keepInBounds_length_eq (bl tr : Pt) (c : Corners) :
    (keepInBounds bl tr (cornersList c)).length = 4 ↔ allIn bl tr c := by
  simp only [keepInBounds, cornersList, allIn, ← inBoundsB_true_iff]
  cases h0 : inBoundsB bl tr c.p0 <;> cases h1 : inBoundsB bl tr c.p1 <;>
    cases h2 : inBoundsB bl tr c.p2 <;> cases h3 : inBoundsB bl tr c.p3 <;>
    simp [List.takeWhile_cons, h0, h1, h2, h3]

lemma pmul_zero (p : Pt) : pmul p 0 = 0 := by
  simp [pmul, Prod.ext_iff]

lemma change_corner_zero (c : Corners) : change_corner c 0 = c := by
  cases c
  simp [change_corner, pmul_zero]

lemma move_view_corner_forward_zero (c : Corners) : move_view_corner_forward c 0 = c := by
  cases c
  simp [move_view_corner_forward, pmul_zero]

lemma rotation_anticlock_zero (p : Pt) : rotation_anticlock 0 p = p := by
  unfold rotation_anticlock
  norm_num

lemma rotateStage_zero (c : Corners) : rotateStage 0 c = c := by
  have key : ∀ m p : Pt, m + (p - m) = p := fun m p => by abel
  cases c
  simp [rotateStage, rotation_anticlock_zero, key]

lemma rmod_of_lt {x : ℝ} (h0 : 0 ≤ x) (h1 : x < 360) : rmod x 360 = x := by
  unfold rmod
  have hf : ⌊x / 360⌋ = 0 := by
    rw [Int.floor_eq_zero_iff]
    exact ⟨div_nonneg h0 (by norm_num), by rw [div_lt_one (by norm_num)]; linarith⟩
  rw [hf]
  norm_num

lemma rmod_360_360 : rmod 360 360 = 0 := by
  unfold rmod
  rw [show ((360 : ℝ)) / 360 = 1 by norm_num, Int.floor_one]
  norm_num

lemma pyRound_coe (n : ℤ) : pyRound (n : ℝ) = n := by
  unfold pyRound
  rw [Int.floor_intCast]
  rw [if_pos (by norm_num)]

lemma curDir_nonneg (c : Corners) : 0 ≤ curDir c := Int.emod_nonneg _ (by norm_num)

lemma curDir_lt (c : Corners) : curDir c < 360 := Int.emod_lt_of_pos _ (by norm_num)

lemma rmod_curDir (c : Corners) : rmod ((curDir c : ℝ) + 0) 360 = (curDir c : ℝ) := by
  rw [add_zero]
  exact rmod_of_lt (by exact_mod_cast curDir_nonneg c) (by exact_mod_cast curDir_lt c)

/-! Stage-by-stage characterization of `move_view_corners`. -/

lemma mvc_zoom_reject (c : Corners) (angle distance altitude : ℝ) (bl tr : Pt)
    (inputDir : Option ℝ)
    (h : ¬ allIn bl tr (change_corner c (zoomChange c altitude))) :
    moveViewCorners c angle distance altitude bl tr inputDir = (c, (curDir c : ℝ)) := by
  have h4 : (keepInBounds bl tr (cornersList (change_corner c (zoomChange c altitude)))).length ≠ 4 :=
    fun hl => h ((keepInBounds_length_eq bl tr _).1 hl)
  simp only [moveViewCorners]
  rw [if_pos h4]

lemma mvc_rotate_reject (c : Corners) (angle distance altitude : ℝ) (bl tr : Pt)
    (inputDir : Option ℝ)
    (hz : allIn bl tr (change_corner c (zoomChange c altitude)))
    (hr : ¬ allIn bl tr (rotateStage (correctedAngle angle inputDir (curDir c))
            (change_corner c (zoomChange c altitude)))) :
    moveViewCorners c angle distance altitude bl tr inputDir =
      (change_corner c (zoomChange c altitude), (curDir c : ℝ)) := by
  have h4 : ¬ (keepInBounds bl tr (cornersList (change_corner c (zoomChange c altitude)))).length ≠ 4 := by
    rw [not_ne_iff]
    exact (keepInBounds_length_eq bl tr _).2 hz
  have h5 : (keepInBounds bl tr (cornersList (rotateStage (correctedAngle angle inputDir (curDir c))
      (change_corner c (zoomChange c altitude))))).length ≠ 4 :=
    fun hl => hr ((keepInBounds_length_eq bl tr _).1 hl)
  simp only [moveViewCorners]
  rw [if_neg h4, if_pos h5]

lemma mvc_move_reject (c : Corners) (angle distance altitude : ℝ) (bl tr : Pt)
    (inputDir : Option ℝ)
    (hz : allIn bl tr (change_corner c (zoomChange c altitude)))
    (hr : allIn bl tr (rotateStage (correctedAngle angle inputDir (curDir c))
            (change_corner c (zoomChange c altitude))))
    (hm : ¬ allIn bl tr (move_view_corner_forward (rotateStage
            (correctedAngle angle inputDir (curDir c))
            (change_corner c (zoomChange c altitude))) distance)) :
    moveViewCorners c angle distance altitude bl tr inputDir =
      (rotateStage (correctedAngle angle inputDir (curDir c))
        (change_corner c (zoomChange c altitude)),
       rmod ((curDir c : ℝ) + correctedAngle angle inputDir (curDir c)) 360) := by
  have h4 : ¬ (keepInBounds bl tr (cornersList (change_corner c (zoomChange c altitude)))).length ≠ 4 := by
    rw [not_ne_iff]
    exact (keepInBounds_length_eq bl tr _).2 hz
  have h5 : ¬ (keepInBounds bl tr (cornersList (rotateStage (correctedAngle angle inputDir (curDir c))
      (change_corner c (zoomChange c altitude))))).length ≠ 4 := by
    rw [not_ne_iff]
    exact (keepInBounds_length_eq bl tr _).2 hr
  have h6 : (keepInBounds bl tr (cornersList (move_view_corner_forward (rotateStage
      (correctedAngle angle inputDir (curDir c))
      (change_corner c (zoomChange c altitude))) distance))).length ≠ 4 :=
    fun hl => hm ((keepInBounds_length_eq bl tr _).1 hl)
  simp only [moveViewCorners]
  rw [if_neg h4, if_neg h5, if_pos h6]

lemma mvc_success (c : Corners) (angle distance altitude : ℝ) (bl tr : Pt)
    (inputDir : Option ℝ)
    (hz : allIn bl tr (change_corner c (zoomChange c altitude)))
    (hr : allIn bl tr (rotateStage (correctedAngle angle inputDir (curDir c))
            (change_corner c (zoomChange c altitude))))
    (hm : allIn bl tr (move_view_corner_forward (rotateStage
            (correctedAngle angle inputDir (curDir c))
            (change_corner c (zoomChange c altitude))) distance)) :
    moveViewCorners c angle distance altitude bl tr inputDir =
      (move_view_corner_forward (rotateStage
        (correctedAngle angle inputDir (curDir c))
        (change_corner c (zoomChange c altitude))) distance,
       rmod ((curDir c : ℝ) + correctedAngle angle inputDir (curDir c)) 360) := by
  have h4 : ¬ (keepInBounds bl tr (cornersList (change_corner c (zoomChange c altitude)))).length ≠ 4 := by
    rw [not_ne_iff]
    exact (keepInBounds_length_eq bl tr _).2 hz
  have h5 : ¬ (keepInBounds bl tr (cornersList (rotateStage (correctedAngle angle inputDir (curDir c))
      (change_corner c (zoomChange c altitude))))).length ≠ 4 := by
    rw [not_ne_iff]
    exact (keepInBounds_length_eq bl tr _).2 hr
  have h6 : ¬ (keepInBounds bl tr (cornersList (move_view_corner_forward (rotateStage
      (correctedAngle angle inputDir (curDir c))
      (change_corner c (zoomChange c altitude))) distance))).length ≠ 4 := by
    rw [not_ne_iff]
    exact (keepInBounds_length_eq bl tr _).2 hm
  simp only [moveViewCorners]
  rw [if_neg h4, if_neg h5, if_neg h6]

/-- Zoom step size vanishes when the altitude matches the reference edge. -/
lemma zoomChange_eq_zero (c : Corners) :
    zoomChange c (vnorm (c.p1 - c.p0) * 11.13 * 10000) = 0 := by
  unfold zoomChange
  rw [sub_self]
  norm_num

/-- When the corrected angle is zero and the altitude matches the reference
edge, the zoom and rotation stages keep the window pointwise fixed, so the
transform reduces to the move stage alone. -/
lemma mvc_identity_in (c : Corners) (angle distance : ℝ) (bl tr : Pt)
    (inputDir : Option ℝ)
    (hA : correctedAngle angle inputDir (curDir c) = 0)
    (hin : allIn bl tr c)
    (hm : allIn bl tr (move_view_corner_forward c distance)) :
    moveViewCorners c angle distance (vnorm (c.p1 - c.p0) * 11.13 * 10000) bl tr inputDir =
      (move_view_corner_forward c distance, (curDir c : ℝ)) := by
  have hZ : change_corner c (zoomChange c (vnorm (c.p1 - c.p0) * 11.13 * 10000)) = c := by
    rw [zoomChange_eq_zero, change_corner_zero]
  have key := mvc_success c angle distance (vnorm (c.p1 - c.p0) * 11.13 * 10000) bl tr inputDir
  rw [hZ, hA, rotateStage_zero] at key
  rw [key hin hin hm, rmod_curDir]

lemma mvc_identity_out (c : Corners) (angle distance : ℝ) (bl tr : Pt)
    (inputDir : Option ℝ)
    (hA : correctedAngle angle inputDir (curDir c) = 0)
    (hin : allIn bl tr c)
    (hm : ¬ allIn bl tr (move_view_corner_forward c distance)) :
    moveViewCorners c angle distance (vnorm (c.p1 - c.p0) * 11.13 * 10000) bl tr inputDir =
      (c, (curDir c : ℝ)) := by
  have hZ : change_corner c (zoomChange c (vnorm (c.p1 - c.p0) * 11.13 * 10000)) = c := by
    rw [zoomChange_eq_zero, change_corner_zero]
  have key := mvc_move_reject c angle distance (vnorm (c.p1 - c.p0) * 11.13 * 10000) bl tr inputDir
  rw [hZ, hA, rotateStage_zero] at key
  rw [key hin hin hm, rmod_curDir]

/-! ## Concrete windows used in witnesses and counterexamples -/

/-- An axis-aligned square whose recomputed direction is 0. -/
def sqA : Corners := ⟨(2, 0), (2, 2), (0, 2), (0, 0)⟩

/-- The same square with the corner order shifted so that the recomputed
direction is 180. -/
def sqB : Corners := ⟨(0, 0), (0, 2), (2, 2), (2, 0)⟩

/-- A square centred at the origin. -/
def sqC : Corners := ⟨(1, -1), (1, 1), (-1, 1), (-1, -1)⟩

/-- A degenerate window: the reference edge p0-p1 has length zero. -/
def wDeg : Corners := ⟨(0, 0), (0, 0), (2, 1), (2, -1)⟩

lemma sqrt_four : Real.sqrt 4 = 2 := by
  rw [show (4 : ℝ) = 2 ^ 2 by norm_num, Real.sqrt_sq (by norm_num)]

lemma vnorm_eval {x y r : ℝ} (hr : 0 ≤ r) (h : x ^ 2 + y ^ 2 = r ^ 2) :
    vnorm (x, y) = r := by
  unfold vnorm
  dsimp only
  rw [h, Real.sqrt_sq hr]

lemma get_direction_flat_pos {s e : Pt} (h2 : e.2 = s.2) (h1 : s.1 < e.1) :
    get_direction s e = 0 := by
  simp only [get_direction]
  have hv2 : (e - s).2 = 0 := by rw [Prod.snd_sub, h2, sub_self]
  have hv1 : 0 < (e - s).1 := by rw [Prod.fst_sub]; linarith
  rw [hv2, if_neg (lt_irrefl 0), if_neg (lt_irrefl 0), if_pos hv1]
  norm_num [rmod_360_360]

lemma get_direction_flat_neg {s e : Pt} (h2 : e.2 = s.2) (h1 : e.1 < s.1) :
    get_direction s e = 180 := by
  simp only [get_direction]
  have hv2 : (e - s).2 = 0 := by rw [Prod.snd_sub, h2, sub_self]
  have hv1 : ¬ 0 < (e - s).1 := by rw [Prod.fst_sub]; linarith
  rw [hv2, if_neg (lt_irrefl 0), if_neg (lt_irrefl 0), if_neg hv1]
  rw [show (360 : ℝ) - 270 + 90 = 180 by norm_num]
  exact rmod_of_lt (by norm_num) (by norm_num)

lemma curDir_sqA : curDir sqA = 0 := by
  have hc : centroid sqA = ((1 : ℝ), (1 : ℝ)) := by
    norm_num [centroid, sqA, pdiv, Prod.mk_add_mk, Prod.ext_iff]
  have hm : pdiv (sqA.p0 + sqA.p1) 2 = ((2 : ℝ), (1 : ℝ)) := by
    norm_num [sqA, pdiv, Prod.mk_add_mk, Prod.ext_iff]
  unfold curDir
  rw [hc, hm, get_direction_flat_pos (by norm_num) (by norm_num)]
  rw [show (0 : ℝ) = ((0 : ℤ) : ℝ) by norm_num, pyRound_coe]
  decide

lemma curDir_sqB : curDir sqB = 180 := by
  have hc : centroid sqB = ((1 : ℝ), (1 : ℝ)) := by
    norm_num [centroid, sqB, pdiv, Prod.mk_add_mk, Prod.ext_iff]
  have hm : pdiv (sqB.p0 + sqB.p1) 2 = ((0 : ℝ), (1 : ℝ)) := by
    norm_num [sqB, pdiv, Prod.mk_add_mk, Prod.ext_iff]
  unfold curDir
  rw [hc, hm, get_direction_flat_neg (by norm_num) (by norm_num)]
  rw [show (180 : ℝ) = ((180 : ℤ) : ℝ) by norm_num, pyRound_coe]
  decide

lemma curDir_wDeg : curDir wDeg = 180 := by
  have hc : centroid wDeg = ((1 : ℝ), (0 : ℝ)) := by
    norm_num [centroid, wDeg, pdiv, Prod.mk_add_mk, Prod.ext_iff]
  have hm : pdiv (wDeg.p0 + wDeg.p1) 2 = ((0 : ℝ), (0 : ℝ)) := by
    norm_num [wDeg, pdiv, Prod.mk_add_mk, Prod.ext_iff]
  unfold curDir
  rw [hc, hm, get_direction_flat_neg (by norm_num) (by norm_num)]
  rw [show (180 : ℝ) = ((180 : ℤ) : ℝ) by norm_num, pyRound_coe]
  decide

/-! ## Claim C9 -/

/-- Claim C9: for every non-degenerate window strictly inside the bounds,
the view transform with requested angle 0, distance 0, target altitude equal
to the current reference edge length scaled by the fixed 11.13e4 projection
constant, and no conflicting asserted direction, returns the input window
unchanged together with its recomputed direction: the zoom change, rotation
and translation are all exactly zero. -/
theorem claim9_identity_transform (c : Corners) (bl tr : Pt) (inputDir : Option ℝ)
    (hnd : vnorm (c.p1 - c.p0) ≠ 0 ∧ vnorm (c.p3 - c.p0) ≠ 0 ∧
      vnorm (c.p2 - c.p1) ≠ 0 ∧ vnorm (c.p2 - c.p3) ≠ 0)
    (hin : allIn bl tr c)
    (hdir : inputDir = none ∨ ∃ d, inputDir = some d ∧ |d - (curDir c : ℝ)| ≤ 2) :
    moveViewCorners c 0 0 (vnorm (c.p1 - c.p0) * 11.13 * 10000) bl tr inputDir =
      (c, (curDir c : ℝ)) := by
  have hA : correctedAngle 0 inputDir (curDir c) = 0 := by
    rcases hdir with h | ⟨d, hd, habs⟩
    · rw [h]
      rfl
    · rw [hd]
      simp only [correctedAngle]
      rw [if_neg (not_lt.2 habs)]
  have key := mvc_identity_in c 0 0 bl tr inputDir hA hin
  rw [move_view_corner_forward_zero] at key
  exact key hin

/-- Witness for C9 at a concrete square strictly inside concrete bounds. -/
theorem claim9_witness :
    (vnorm (sqA.p1 - sqA.p0) ≠ 0 ∧ vnorm (sqA.p3 - sqA.p0) ≠ 0 ∧
      vnorm (sqA.p2 - sqA.p1) ≠ 0 ∧ vnorm (sqA.p2 - sqA.p3) ≠ 0) ∧
    allIn ((-1 : ℝ), (-1 : ℝ)) ((3 : ℝ), (3 : ℝ)) sqA ∧
    moveViewCorners sqA 0 0 (vnorm (sqA.p1 - sqA.p0) * 11.13 * 10000)
      ((-1 : ℝ), (-1 : ℝ)) ((3 : ℝ), (3 : ℝ)) none = (sqA, (curDir sqA : ℝ)) := by
  have e1 : vnorm (sqA.p1 - sqA.p0) = 2 := by
    rw [show sqA.p1 - sqA.p0 = (((0 : ℝ), (2 : ℝ)) : Pt) by
      norm_num [sqA, Prod.mk_sub_mk, Prod.ext_iff]]
    exact vnorm_eval (by norm_num) (by norm_num)
  have e2 : vnorm (sqA.p3 - sqA.p0) = 2 := by
    rw [show sqA.p3 - sqA.p0 = (((-2 : ℝ), (0 : ℝ)) : Pt) by
      norm_num [sqA, Prod.mk_sub_mk, Prod.ext_iff]]
    exact vnorm_eval (by norm_num) (by norm_num)
  have e3 : vnorm (sqA.p2 - sqA.p1) = 2 := by
    rw [show sqA.p2 - sqA.p1 = (((-2 : ℝ), (0 : ℝ)) : Pt) by
      norm_num [sqA, Prod.mk_sub_mk, Prod.ext_iff]]
    exact vnorm_eval (by norm_num) (by norm_num)
  have e4 : vnorm (sqA.p2 - sqA.p3) = 2 := by
    rw [show sqA.p2 - sqA.p3 = (((0 : ℝ), (2 : ℝ)) : Pt) by
      norm_num [sqA, Prod.mk_sub_mk, Prod.ext_iff]]
    exact vnorm_eval (by norm_num) (by norm_num)
  have hnd : vnorm (sqA.p1 - sqA.p0) ≠ 0 ∧ vnorm (sqA.p3 - sqA.p0) ≠ 0 ∧
      vnorm (sqA.p2 - sqA.p1) ≠ 0 ∧ vnorm (sqA.p2 - sqA.p3) ≠ 0 := by
    rw [e1, e2, e3, e4]
    norm_num
  have hin : allIn ((-1 : ℝ), (-1 : ℝ)) ((3 : ℝ), (3 : ℝ)) sqA := by
    norm_num [allIn, inBounds, sqA]
  exact ⟨hnd, hin, claim9_identity_transform sqA _ _ none hnd hin (Or.inl rfl)⟩

/-! ## Claim C1 -/

/-- Claim C1 (amended): each stage of the view transform is atomic with
respect to the bounds.  A zoom-stage escape returns the input window with
the recomputed direction unchanged; a rotate-stage escape returns the
zoomed-but-unrotated window with direction unchanged; a move-stage escape
returns the rotated-but-untranslated window with direction
`(old + appliedAngle) mod 360`, where the applied angle is the requested
angle plus the whole asserted direction whenever the drift branch fires
(not the requested angle alone, as the original claim stated).  No stage
ever returns a partially applied corner set. -/
theorem claim1_stage_atomicity (c : Corners) (angle distance altitude : ℝ)
    (bl tr : Pt) (inputDir : Option ℝ) :
    (¬ allIn bl tr (change_corner c (zoomChange c altitude)) →
      moveViewCorners c angle distance altitude bl tr inputDir = (c, (curDir c : ℝ))) ∧
    (allIn bl tr (change_corner c (zoomChange c altitude)) →
      ¬ allIn bl tr (rotateStage (correctedAngle angle inputDir (curDir c))
          (change_corner c (zoomChange c altitude))) →
      moveViewCorners c angle distance altitude bl tr inputDir =
        (change_corner c (zoomChange c altitude), (curDir c : ℝ))) ∧
    (allIn bl tr (change_corner c (zoomChange c altitude)) →
      allIn bl tr (rotateStage (correctedAngle angle inputDir (curDir c))
          (change_corner c (zoomChange c altitude))) →
      ¬ allIn bl tr (move_view_corner_forward
          (rotateStage (correctedAngle angle inputDir (curDir c))
            (change_corner c (zoomChange c altitude))) distance) →
      moveViewCorners c angle distance altitude bl tr inputDir =
        (rotateStage (correctedAngle angle inputDir (curDir c))
            (change_corner c (zoomChange c altitude)),
         rmod ((curDir c : ℝ) + correctedAngle angle inputDir (curDir c)) 360)) :=
  ⟨mvc_zoom_reject c angle distance altitude bl tr inputDir,
   mvc_rotate_reject c angle distance altitude bl tr inputDir,
   mvc_move_reject c angle distance altitude bl tr inputDir⟩

/-- Counterexample to C1 as stated: with asserted direction 10 against a
recomputed direction 0 and requested angle -10, the drift branch makes the
applied rotation 0; the move stage escapes the bounds, and the returned
direction is 0, not `(0 + (-10)) mod 360 = 350` as the claim's
`old + requested` formula demands. -/
theorem claim1_counterexample :
    moveViewCorners sqA (-10) 10 222600 ((-1 : ℝ), (-1 : ℝ)) ((3 : ℝ), (3 : ℝ))
      (some 10) = (sqA, 0) ∧
    ¬ allIn ((-1 : ℝ), (-1 : ℝ)) ((3 : ℝ), (3 : ℝ)) (move_view_corner_forward sqA 10) ∧
    rmod ((curDir sqA : ℝ) + (-10)) 360 = 350 ∧ ((0 : ℝ) ≠ 350) := by
  have e1 : vnorm (sqA.p1 - sqA.p0) = 2 := by
    rw [show sqA.p1 - sqA.p0 = (((0 : ℝ), (2 : ℝ)) : Pt) by
      norm_num [sqA, Prod.mk_sub_mk, Prod.ext_iff]]
    exact vnorm_eval (by norm_num) (by norm_num)
  have halt : vnorm (sqA.p1 - sqA.p0) * 11.13 * 10000 = 222600 := by
    rw [e1]
    norm_num
  have hA : correctedAngle (-10) (some 10) (curDir sqA) = 0 := by
    rw [curDir_sqA]
    simp only [correctedAngle]
    rw [if_pos (by norm_num)]
    norm_num
  have hfwd : move_view_corner_forward sqA 10 =
      ⟨((12 : ℝ), (0 : ℝ)), ((12 : ℝ), (2 : ℝ)), ((10 : ℝ), (2 : ℝ)), ((10 : ℝ), (0 : ℝ))⟩ := by
    have hv1 : vnorm (sqA.p3 - sqA.p0) = 2 := by
      rw [show sqA.p3 - sqA.p0 = (((-2 : ℝ), (0 : ℝ)) : Pt) by
        norm_num [sqA, Prod.mk_sub_mk, Prod.ext_iff]]
      exact vnorm_eval (by norm_num) (by norm_num)
    have hv2 : vnorm (sqA.p2 - sqA.p1) = 2 := by
      rw [show sqA.p2 - sqA.p1 = (((-2 : ℝ), (0 : ℝ)) : Pt) by
        norm_num [sqA, Prod.mk_sub_mk, Prod.ext_iff]]
      exact vnorm_eval (by norm_num) (by norm_num)
    simp only [move_view_corner_forward, hv1, hv2]
    norm_num [sqA, pmul, pdiv, Prod.mk_sub_mk, Prod.mk_add_mk, Prod.ext_iff]
  have hm : ¬ allIn ((-1 : ℝ), (-1 : ℝ)) ((3 : ℝ), (3 : ℝ)) (move_view_corner_forward sqA 10) := by
    rw [hfwd]
    norm_num [allIn, inBounds]
  have hin : allIn ((-1 : ℝ), (-1 : ℝ)) ((3 : ℝ), (3 : ℝ)) sqA := by
    norm_num [allIn, inBounds, sqA]
  have key := mvc_move_reject sqA (-10) 10 222600 ((-1 : ℝ), (-1 : ℝ)) ((3 : ℝ), (3 : ℝ)) (some 10)
  rw [show zoomChange sqA 222600 = 0 by rw [← halt]; exact zoomChange_eq_zero sqA,
    change_corner_zero, hA, rotateStage_zero] at key
  have hres := key hin hin hm
  rw [rmod_curDir, curDir_sqA] at hres
  refine ⟨by rw [hres]; norm_num, hm, ?_, by norm_num⟩
  rw [curDir_sqA]
  have hfl : ⌊((0 : ℤ) + (-10 : ℝ)) / 360⌋ = -1 := by
    rw [Int.floor_eq_iff]
    constructor
    · norm_num
    · norm_num
  unfold rmod
  rw [hfl]
  norm_num

/-! ## Claim C2 -/

/-- Claim C2 failing input (code bug): with recomputed direction 180,
asserted direction 190 and requested angle -190, the drift branch fires
(|190 - 180| > 2) yet the applied rotation is `-190 + 190 = 0`, because
line 304 adds the whole asserted direction; the claim (and the warning the
source itself prints) demand the discrepancy `190 - 180 = 10`, i.e. an
applied rotation of -180.  The window comes back unrotated with direction
180, which the claimed -180 rotation could not produce. -/
theorem claim2_drift_divergence :
    moveViewCorners sqB (-190) 0 222600 ((-1 : ℝ), (-1 : ℝ)) ((3 : ℝ), (3 : ℝ))
      (some 190) = (sqB, 180) ∧
    correctedAngle (-190) (some 190) (curDir sqB) = 0 ∧
    ((-190 : ℝ) + (190 - (curDir sqB : ℝ))) = -180 ∧ ((0 : ℝ) ≠ -180) := by
  have e1 : vnorm (sqB.p1 - sqB.p0) = 2 := by
    rw [show sqB.p1 - sqB.p0 = (((0 : ℝ), (2 : ℝ)) : Pt) by
      norm_num [sqB, Prod.mk_sub_mk, Prod.ext_iff]]
    exact vnorm_eval (by norm_num) (by norm_num)
  have halt : vnorm (sqB.p1 - sqB.p0) * 11.13 * 10000 = 222600 := by
    rw [e1]
    norm_num
  have hA : correctedAngle (-190) (some 190) (curDir sqB) = 0 := by
    rw [curDir_sqB]
    simp only [correctedAngle]
    rw [if_pos (by norm_num)]
    norm_num
  have hin : allIn ((-1 : ℝ), (-1 : ℝ)) ((3 : ℝ), (3 : ℝ)) sqB := by
    norm_num [allIn, inBounds, sqB]
  have key := mvc_identity_in sqB (-190) 0 ((-1 : ℝ), (-1 : ℝ)) ((3 : ℝ), (3 : ℝ)) (some 190) hA hin
  rw [move_view_corner_forward_zero, halt] at key
  have hres := key hin
  rw [curDir_sqB] at hres
  refine ⟨by rw [hres]; norm_num, hA, ?_, by norm_num⟩
  rw [curDir_sqB]
  norm_num

/-! ## Claim C6 -/

/-- Claim C6 failing input (code bug): on a window whose reference edge
p0-p1 has length zero, `move_view_corners` raises nothing — no
GeometryError type exists anywhere in the source — and the zero-length
divisor flows into the corner divisions (NaN in numpy, junk-0 in the real
model); here the call returns a window normally. -/
theorem claim6_no_geometry_error :
    vnorm (wDeg.p1 - wDeg.p0) = 0 ∧
    moveViewCorners wDeg 0 0 0 ((-10 : ℝ), (-10 : ℝ)) ((10 : ℝ), (10 : ℝ)) none =
      (wDeg, 180) := by
  have e0 : vnorm (wDeg.p1 - wDeg.p0) = 0 := by
    rw [show wDeg.p1 - wDeg.p0 = (((0 : ℝ), (0 : ℝ)) : Pt) by
      norm_num [wDeg, Prod.mk_sub_mk, Prod.ext_iff]]
    exact vnorm_eval (by norm_num) (by norm_num)
  have halt : vnorm (wDeg.p1 - wDeg.p0) * 11.13 * 10000 = 0 := by
    rw [e0]
    norm_num
  have hin : allIn ((-10 : ℝ), (-10 : ℝ)) ((10 : ℝ), (10 : ℝ)) wDeg := by
    norm_num [allIn, inBounds, wDeg]
  have key := mvc_identity_in wDeg 0 0 ((-10 : ℝ), (-10 : ℝ)) ((10 : ℝ), (10 : ℝ)) none rfl hin
  rw [move_view_corner_forward_zero, halt] at key
  have hres := key hin
  rw [curDir_wDeg] at hres
  exact ⟨e0, by rw [hres]; norm_num⟩

/-! ## Claim C3 -/

/-- Claim C3: `compute_iou` returns 0 when the two polygons do not intersect,
and otherwise the intersection area divided by the convex-hull area of the
combined vertex set (the hull-ratio, not textbook IoU); when both arguments
are the identical quadrilateral and the backend consequently reports equal
intersection and hull areas with nonzero hull area — as shapely does for an
identical convex quadrilateral — the value is exactly 1. -/
theorem claim3_hull_ratio (g : ShapelyModel) (a b : Corners) :
    (g.intersects a b = false → compute_iou g a b = 0) ∧
    (g.intersects a b = true →
      compute_iou g a b = g.interArea a b / g.hullArea a b) ∧
    (g.intersects a a = true → g.interArea a a = g.hullArea a a →
      g.hullArea a a ≠ 0 → compute_iou g a a = 1) := by
  refine ⟨fun h => ?_, fun h => ?_, fun h he hz => ?_⟩
  · simp [compute_iou, h]
  · simp [compute_iou, h]
  · rw [compute_iou, if_pos (by rw [h]), he, div_self hz]

/-- A concrete backend on which the identical-quadrilateral hypotheses of C3
are satisfied, showing them non-vacuous. -/
lemma compute_iou_identical_example :
    compute_iou ⟨fun _ _ => true, fun _ _ => 4, fun _ _ => 4, fun _ _ => []⟩ sqA sqA = 1 := by
  norm_num [compute_iou]

/-! ## Claim C7 -/

lemma nadd_none_right (x : WithNaN) : nadd x none = none := by
  cases x <;> rfl

lemma nadd_none_left (x : WithNaN) : nadd none x = none := by
  cases x <;> rfl

lemma nmul_none (r : ℝ) : nmul r none = none := rfl

/-- Counterexample to C7 as stated: a NaN per-sample action-regression term
is added to the running objective, which becomes NaN instead of staying at
its previous value 0. -/
theorem claim7_counterexample :
    addSampleLoss (some 0) none (some 0) (some 0) (some 0) = none ∧
    addSampleLoss (some 0) none (some 0) (some 0) (some 0) ≠ some (0 : ℝ) := by
  have h : addSampleLoss (some 0) none (some 0) (some 0) (some 0) = none := rfl
  exact ⟨h, by rw [h]; simp⟩

/-- Claim C7 (amended): only the NSS term is excluded from the objective when
it evaluates to NaN; a NaN among the per-sample regression terms or the
bbox/label terms is accumulated regardless — the `ml_loss != ml_loss` checks
only log — so the objective itself becomes NaN. -/
theorem claim7_nan_guard (ml : WithNaN) (w : ℝ) (t2 t3 t4 : WithNaN) :
    addNssLoss ml w none = ml ∧
    addSampleLoss ml none t2 t3 t4 = none ∧
    addSampleLoss ml t2 none t3 t4 = none ∧
    addSampleLoss ml t2 t3 none t4 = none ∧
    addSampleLoss ml t2 t3 t4 none = none ∧
    addBoxLoss ml none t3 t4 = none ∧
    addBoxLoss ml t2 none t4 = none ∧
    addBoxLoss ml t2 t3 none = none := by
  refine ⟨rfl, ?_, ?_, ?_, ?_, ?_, ?_, ?_⟩ <;>
    simp [addSampleLoss, addBoxLoss, nadd_none_right, nadd_none_left, nmul_none]

/-! ## Claim C5 -/

/-- Invariant of the `min_distance = 1` selection fold of lines 420-426:
the accumulator either never changes, or holds the first strictly-improving
point; its running minimum never increases and ends below every scanned
distance. -/
lemma pickTarget_fold (goal : Pt) (pts : List Pt) : ∀ a : ℝ × Option Pt,
    (pts.foldl (fun acc x =>
        if vnorm (x - goal) < acc.1 then (vnorm (x - goal), some x) else acc) a = a ∨
      ∃ q, q ∈ pts ∧
        pts.foldl (fun acc x =>
          if vnorm (x - goal) < acc.1 then (vnorm (x - goal), some x) else acc) a =
          (vnorm (q - goal), some q) ∧ vnorm (q - goal) < a.1) ∧
    (pts.foldl (fun acc x =>
        if vnorm (x - goal) < acc.1 then (vnorm (x - goal), some x) else acc) a).1 ≤ a.1 ∧
    ∀ p ∈ pts,
      (pts.foldl (fun acc x =>
        if vnorm (x - goal) < acc.1 then (vnorm (x - goal), some x) else acc) a).1 ≤
        vnorm (p - goal) := by
  induction pts with
  | nil =>
    intro a
    exact ⟨Or.inl rfl, le_refl _, by simp⟩
  | cons x xs ih =>
    intro a
    rw [List.foldl_cons]
    by_cases hx : vnorm (x - goal) < a.1
    · rw [if_pos hx]
      obtain ⟨hcase, hle, hall⟩ := ih (vnorm (x - goal), some x)
      refine ⟨?_, le_trans hle (le_of_lt hx), ?_⟩
      · rcases hcase with heq | ⟨q, hq, hr, hlt⟩
        · exact Or.inr ⟨x, List.mem_cons_self x xs, heq, hx⟩
        · exact Or.inr ⟨q, List.mem_cons_of_mem x hq, hr, lt_trans hlt hx⟩
      · intro p hp
        rcases List.mem_cons.1 hp with hpx | hpxs
        · rw [hpx]
          exact hle
        · exact hall p hpxs
    · rw [if_neg hx]
      obtain ⟨hcase, hle, hall⟩ := ih a
      refine ⟨?_, hle, ?_⟩
      · rcases hcase with heq | ⟨q, hq, hr, hlt⟩
        · exact Or.inl heq
        · exact Or.inr ⟨q, List.mem_cons_of_mem x hq, hr, hlt⟩
      · intro p hp
        rcases List.mem_cons.1 hp with hpx | hpxs
        · rw [hpx]
          exact le_trans hle (not_lt.1 hx)
        · exact hall p hpxs

/-- Claim C5 (amended): whenever some intersection point lies within
Euclidean distance 1 of the goal centroid, the selection loop of
`teacher_action` picks a point of the list at minimal distance to the goal
among all intersection points; with every point at distance 1 or more the
loop never updates and no target is selected (the slot keeps its string
initializer). -/
theorem claim5_min_within_one (pts : List Pt) (goal : Pt)
    (h : ∃ p ∈ pts, vnorm (p - goal) < 1) :
    ∃ q, pickTarget pts goal = some q ∧ q ∈ pts ∧
      ∀ p ∈ pts, vnorm (q - goal) ≤ vnorm (p - goal) := by
  obtain ⟨p0, hp0, hlt⟩ := h
  obtain ⟨hcase, hle, hall⟩ := pickTarget_fold goal pts ((1 : ℝ), (none : Option Pt))
  rcases hcase with heq | ⟨q, hq, hr, _⟩
  · exfalso
    have h1 := hall p0 hp0
    rw [heq] at h1
    exact absurd (lt_of_le_of_lt h1 hlt) (lt_irrefl _)
  · refine ⟨q, ?_, hq, ?_⟩
    · unfold pickTarget
      rw [hr]
    · intro p hp
      have h1 := hall p hp
      rw [hr] at h1
      exact h1

/-- Witness for C5's amended statement at a one-point list within range. -/
theorem claim5_witness :
    (∃ p ∈ ([((0.5 : ℝ), (0 : ℝ))] : List Pt), vnorm (p - ((0 : ℝ), (0 : ℝ))) < 1) ∧
    ∃ q, pickTarget [((0.5 : ℝ), (0 : ℝ))] ((0 : ℝ), (0 : ℝ)) = some q ∧
      q ∈ ([((0.5 : ℝ), (0 : ℝ))] : List Pt) ∧
      ∀ p ∈ ([((0.5 : ℝ), (0 : ℝ))] : List Pt),
        vnorm (q - ((0 : ℝ), (0 : ℝ))) ≤ vnorm (p - ((0 : ℝ), (0 : ℝ))) := by
  have hv : vnorm (((0.5 : ℝ), (0 : ℝ)) - ((0 : ℝ), (0 : ℝ))) = 0.5 := by
    rw [show (((0.5 : ℝ), (0 : ℝ)) : Pt) - ((0 : ℝ), (0 : ℝ)) = ((0.5 : ℝ), (0 : ℝ)) by
      norm_num [Prod.mk_sub_mk, Prod.ext_iff]]
    exact vnorm_eval (by norm_num) (by norm_num)
  have h : ∃ p ∈ ([((0.5 : ℝ), (0 : ℝ))] : List Pt), vnorm (p - ((0 : ℝ), (0 : ℝ))) < 1 :=
    ⟨((0.5 : ℝ), (0 : ℝ)), List.mem_singleton_self _, by rw [hv]; norm_num⟩
  exact ⟨h, claim5_min_within_one _ _ h⟩

/-! ## Structure of `teacher_action` results -/

lemma vnorm_sub_self (p : Pt) : vnorm (p - p) = 0 := by
  rw [sub_self]
  unfold vnorm
  simp

/-- Every successful per-sample result of `teacher_action` is either the
terminal zero-array sentinel (when ended or progress above 0.5) or the
clamped solution of the 2x2 basis solve; its progress component is the
`compute_iou` value against the final reference window. -/
lemma teacherAction_shape (g : ShapelyModel) (fb : Feedback) (c : Corners)
    (path : List Corners) (ended : Bool) (out : Slot × ℝ × ℝ)
    (heq : teacherAction g fb c path ended = some out) :
    ∃ fin, path.getLast? = some fin ∧
      out.2.2 = compute_iou g c fin ∧
      (((ended = true ∨ 0.5 < compute_iou g c fin) ∧ out.1 = Slot.arr (0, 0)) ∨
        (¬ (ended = true ∨ 0.5 < compute_iou g c fin) ∧
          ∃ r, (∃ nx ny b, solve2 nx ny b = some r) ∧ out.1 = Slot.arr (clampPair r))) := by
  cases hgl : path.getLast? with
  | none => simp [teacherAction, hgl] at heq
  | some fin =>
    cases hpc : pickClosest (centroid c) path with
    | none => simp [teacherAction, hgl, hpc] at heq
    | some ci =>
      by_cases hterm : ended = true ∨ 0.5 < compute_iou g c fin
      · simp only [teacherAction, hgl, hpc, if_pos hterm, Option.some.injEq] at heq
        exact ⟨fin, rfl, by rw [← heq], Or.inl ⟨hterm, by rw [← heq]⟩⟩
      · simp only [teacherAction, hgl, hpc, if_neg hterm] at heq
        cases hpt : pickTarget (intersectionPts g fb c path (centroid c) (centroid fin))
            (centroid fin) with
        | none => rw [hpt] at heq; simp at heq
        | some x =>
          rw [hpt] at heq
          simp only [] at heq
          cases hs : solve2
              (pyRound (100000 * (pdiv (c.p1 + c.p2) 2 - centroid c).1),
               pyRound (100000 * (pdiv (c.p1 + c.p2) 2 - centroid c).2))
              (pyRound (100000 * (pdiv (c.p0 + c.p1) 2 - centroid c).1),
               pyRound (100000 * (pdiv (c.p0 + c.p1) 2 - centroid c).2))
              (pmul (x - centroid c) 100000) with
          | none => rw [hs] at heq; simp at heq
          | some r =>
            rw [hs] at heq
            simp only [Option.some.injEq] at heq
            exact ⟨fin, rfl, by rw [← heq],
              Or.inr ⟨hterm, r, ⟨_, _, _, hs⟩, by rw [← heq]⟩⟩

/-- Properties of the clamp of lines 460-462. -/
lemma clampPair_spec (u : Pt) :
    max |(clampPair u).1| |(clampPair u).2| ≤ 1 ∧
    (clampPair u).1 = u.1 / max (max |u.1| |u.2|) 1 ∧
    (clampPair u).2 = u.2 / max (max |u.1| |u.2|) 1 ∧
    ∃ k : ℝ, 0 < k ∧ (clampPair u).1 = k * u.1 ∧ (clampPair u).2 = k * u.2 := by
  have hm1 : (1 : ℝ) ≤ max (max |u.1| |u.2|) 1 := le_max_right _ _
  have hm0 : (0 : ℝ) < max (max |u.1| |u.2|) 1 := lt_of_lt_of_le one_pos hm1
  refine ⟨?_, rfl, rfl, (max (max |u.1| |u.2|) 1)⁻¹, inv_pos.2 hm0, ?_, ?_⟩
  · rw [max_le_iff]
    constructor
    · show |u.1 / max (max |u.1| |u.2|) 1| ≤ 1
      rw [abs_div, abs_of_pos hm0, div_le_one hm0]
      exact le_trans (le_max_left _ _) (le_max_left _ _)
    · show |u.2 / max (max |u.1| |u.2|) 1| ≤ 1
      rw [abs_div, abs_of_pos hm0, div_le_one hm0]
      exact le_trans (le_max_right _ _) (le_max_left _ _)
  · show u.1 / max (max |u.1| |u.2|) 1 = _
    rw [div_eq_inv_mul]
  · show u.2 / max (max |u.1| |u.2|) 1 = _
    rw [div_eq_inv_mul]

/-! ## Claim C4 -/

/-- Claim C4: every non-terminal oracle action returned by `teacher_action`
satisfies `max(|rx|, |ry|) ≤ 1` and equals the unclamped 2x2-solve
coefficients divided by `max(|rx|, |ry|, 1)`, hence is a positive scalar
multiple of the unclamped pair (direction preserved). -/
theorem claim4_clamp (g : ShapelyModel) (fb : Feedback) (c : Corners)
    (path : List Corners) (a : Pt) (alt pr : ℝ)
    (heq : teacherAction g fb c path false = some (Slot.arr a, alt, pr))
    (hpr : pr ≤ 0.5) :
    max |a.1| |a.2| ≤ 1 ∧
    ∃ u, (∃ nx ny b, solve2 nx ny b = some u) ∧ a = clampPair u ∧
      a.1 = u.1 / max (max |u.1| |u.2|) 1 ∧ a.2 = u.2 / max (max |u.1| |u.2|) 1 ∧
      ∃ k : ℝ, 0 < k ∧ a.1 = k * u.1 ∧ a.2 = k * u.2 := by
  obtain ⟨fin, hgl, hprr, hcase⟩ := teacherAction_shape g fb c path false _ heq
  have hpr2 : pr = compute_iou g c fin := hprr
  rcases hcase with ⟨hterm, _⟩ | ⟨_, r, hex, harr⟩
  · rcases hterm with h | h
    · exact absurd h (by simp)
    · rw [← hpr2] at h
      linarith
  · have ha : a = clampPair r := by
      have h2 : Slot.arr a = Slot.arr (clampPair r) := harr
      injection h2
    obtain ⟨h1, h2, h3, h4⟩ := clampPair_spec r
    subst ha
    exact ⟨h1, r, hex, rfl, h2, h3, h4⟩

/-! ## Claim C10 -/

/-- Claim C10: every value `teacher_action` leaves in the action slot of a
successful result is a numpy float array — never an int — so the guard
`type(target[i][0]) != type(-100)` of line 611 is always True, the branch
that would skip the action/altitude/progress loss is unreachable, and for
samples judged terminal the loss is computed against the zero array. -/
theorem claim10_guard_always_true (g : ShapelyModel) (fb : Feedback) (c : Corners)
    (path : List Corners) (ended : Bool) (out : Slot × ℝ × ℝ)
    (heq : teacherAction g fb c path ended = some out) :
    notIntGuard out.1 = true ∧ (∃ p, out.1 = Slot.arr p) ∧
      ((ended = true ∨ 0.5 < out.2.2) → out.1 = Slot.arr (0, 0)) := by
  obtain ⟨fin, hgl, hprr, hcase⟩ := teacherAction_shape g fb c path ended out heq
  rcases hcase with ⟨hterm, harr⟩ | ⟨hterm, r, _, harr⟩
  · exact ⟨by rw [harr]; rfl, ⟨_, harr⟩, fun _ => harr⟩
  · refine ⟨by rw [harr]; rfl, ⟨_, harr⟩, fun h => absurd ?_ hterm⟩
    rw [hprr] at h
    exact h

/-! ## Concrete evaluations of `teacher_action` -/

lemma centroid_sqC : centroid sqC = ((0 : ℝ), (0 : ℝ)) := by
  norm_num [centroid, sqC, pdiv, Prod.mk_add_mk, Prod.ext_iff]

lemma pickClosest_self_single (c : Corners) : pickClosest (centroid c) [c] = some 0 := by
  unfold pickClosest
  rw [show (List.range ([c] : List Corners).length).reverse = [0] from rfl]
  simp only [List.foldl_cons, List.foldl_nil, List.getD_cons_zero]
  rw [if_pos (by rw [vnorm_sub_self]; norm_num)]

lemma pickTarget_single_none (x goal : Pt) (h : ¬ vnorm (x - goal) < 1) :
    pickTarget [x] goal = none := by
  unfold pickTarget
  simp only [List.foldl_cons, List.foldl_nil]
  rw [if_neg h]

lemma pickTarget_single_some (x goal : Pt) (h : vnorm (x - goal) < 1) :
    pickTarget [x] goal = some x := by
  unfold pickTarget
  simp only [List.foldl_cons, List.foldl_nil]
  rw [if_pos h]

/-- A backend whose intersection point lies far from the goal centroid. -/
def gFar : ShapelyModel :=
  ⟨fun _ _ => false, fun _ _ => 0, fun _ _ => 1, fun _ _ => [((5 : ℝ), (0 : ℝ))]⟩

/-- A backend whose intersection point lies within distance 1 of the goal. -/
def gNear : ShapelyModel :=
  ⟨fun _ _ => false, fun _ _ => 0, fun _ _ => 1, fun _ _ => [((0.5 : ℝ), (0 : ℝ))]⟩

lemma teacherAction_single_terminal (g : ShapelyModel) (fb : Feedback) (c : Corners)
    (hiou : g.intersects c c = false) :
    teacherAction g fb c [c] true =
      some (Slot.arr (0, 0), (vnorm (c.p0 - c.p1) * 11.13 * 10000 - 40) / (400 - 40), 0) := by
  have hgl : ([c] : List Corners).getLast? = some c := rfl
  have hpr : compute_iou g c c = 0 := by simp [compute_iou, hiou]
  simp only [teacherAction, hgl, pickClosest_self_single, hpr]
  rw [if_pos (Or.inl trivial : True ∨ (0.5 : ℝ) < 0)]
  rfl

lemma teacherAction_single_crash (g : ShapelyModel) (fb : Feedback) (c : Corners)
    (hiou : g.intersects c c = false)
    (hpt : pickTarget (intersectionPts g fb c [c] (centroid c) (centroid c))
      (centroid c) = none) :
    teacherAction g fb c [c] false = none := by
  have hgl : ([c] : List Corners).getLast? = some c := rfl
  have hpr : compute_iou g c c = 0 := by simp [compute_iou, hiou]
  simp only [teacherAction, hgl, pickClosest_self_single, hpr]
  rw [if_neg (by norm_num : ¬ (false = true ∨ (0.5 : ℝ) < 0))]
  rw [hpt]

lemma teacherAction_single_act (g : ShapelyModel) (fb : Feedback) (c : Corners)
    (hiou : g.intersects c c = false) (x r : Pt)
    (hpt : pickTarget (intersectionPts g fb c [c] (centroid c) (centroid c))
      (centroid c) = some x)
    (hs : solve2
        (pyRound (100000 * (pdiv (c.p1 + c.p2) 2 - centroid c).1),
         pyRound (100000 * (pdiv (c.p1 + c.p2) 2 - centroid c).2))
        (pyRound (100000 * (pdiv (c.p0 + c.p1) 2 - centroid c).1),
         pyRound (100000 * (pdiv (c.p0 + c.p1) 2 - centroid c).2))
        (pmul (x - centroid c) 100000) = some r) :
    teacherAction g fb c [c] false =
      some (Slot.arr (clampPair r),
        (vnorm (c.p0 - c.p1) * 11.13 * 10000 - 40) / (400 - 40), 0) := by
  have hgl : ([c] : List Corners).getLast? = some c := rfl
  have hpr : compute_iou g c c = 0 := by simp [compute_iou, hiou]
  simp only [teacherAction, hgl, pickClosest_self_single, hpr]
  rw [if_neg (by norm_num : ¬ (false = true ∨ (0.5 : ℝ) < 0))]
  rw [hpt]
  simp only []
  rw [hs]
  rfl

/-! ## Claim C5 counterexample -/

/-- Counterexample to C5 as stated: the target line's intersection with the
window is the non-empty set `[(5, 0)]`, every point of it at distance ≥ 1
from the goal centroid; the `min_distance = 1` initializer means the loop
never selects it — no target point at all is used (the slot keeps its string
initializer and the source crashes at line 447), instead of the minimal
intersection point the claim demands. -/
theorem claim5_counterexample :
    intersectionPts gFar Feedback.student sqC [sqC] (centroid sqC) (centroid sqC) =
      [((5 : ℝ), (0 : ℝ))] ∧
    (([((5 : ℝ), (0 : ℝ))] : List Pt) ≠ []) ∧
    pickTarget [((5 : ℝ), (0 : ℝ))] (centroid sqC) = none ∧
    teacherAction gFar Feedback.student sqC [sqC] false = none := by
  have h1 : intersectionPts gFar Feedback.student sqC [sqC] (centroid sqC) (centroid sqC) =
      [((5 : ℝ), (0 : ℝ))] := rfl
  have hv : vnorm (((5 : ℝ), (0 : ℝ)) - centroid sqC) = 5 := by
    rw [centroid_sqC, show (((5 : ℝ), (0 : ℝ)) : Pt) - ((0 : ℝ), (0 : ℝ)) = ((5 : ℝ), (0 : ℝ)) by
      norm_num [Prod.mk_sub_mk, Prod.ext_iff]]
    exact vnorm_eval (by norm_num) (by norm_num)
  have h3 : pickTarget [((5 : ℝ), (0 : ℝ))] (centroid sqC) = none :=
    pickTarget_single_none _ _ (by rw [hv]; norm_num)
  refine ⟨h1, by simp, h3, teacherAction_single_crash gFar _ sqC rfl ?_⟩
  rw [h1]
  exact h3

/-! ## Witness evaluations at the origin-centred square -/

lemma pyRound_100000 : pyRound (100000 : ℝ) = 100000 := by
  rw [show (100000 : ℝ) = ((100000 : ℤ) : ℝ) by norm_num, pyRound_coe]

lemma pyRound_zero : pyRound (0 : ℝ) = 0 := by
  rw [show (0 : ℝ) = ((0 : ℤ) : ℝ) by norm_num, pyRound_coe]

lemma netY_sqC_fst : pyRound (100000 * (pdiv (sqC.p0 + sqC.p1) 2 - centroid sqC).1) = 100000 := by
  rw [show (100000 : ℝ) * (pdiv (sqC.p0 + sqC.p1) 2 - centroid sqC).1 = 100000 by
    rw [centroid_sqC]
    norm_num [sqC, pdiv, Prod.mk_add_mk, Prod.mk_sub_mk]]
  exact pyRound_100000

lemma netY_sqC_snd : pyRound (100000 * (pdiv (sqC.p0 + sqC.p1) 2 - centroid sqC).2) = 0 := by
  rw [show (100000 : ℝ) * (pdiv (sqC.p0 + sqC.p1) 2 - centroid sqC).2 = 0 by
    rw [centroid_sqC]
    norm_num [sqC, pdiv, Prod.mk_add_mk, Prod.mk_sub_mk]]
  exact pyRound_zero

lemma netX_sqC_fst : pyRound (100000 * (pdiv (sqC.p1 + sqC.p2) 2 - centroid sqC).1) = 0 := by
  rw [show (100000 : ℝ) * (pdiv (sqC.p1 + sqC.p2) 2 - centroid sqC).1 = 0 by
    rw [centroid_sqC]
    norm_num [sqC, pdiv, Prod.mk_add_mk, Prod.mk_sub_mk]]
  exact pyRound_zero

lemma netX_sqC_snd : pyRound (100000 * (pdiv (sqC.p1 + sqC.p2) 2 - centroid sqC).2) = 100000 := by
  rw [show (100000 : ℝ) * (pdiv (sqC.p1 + sqC.p2) 2 - centroid sqC).2 = 100000 by
    rw [centroid_sqC]
    norm_num [sqC, pdiv, Prod.mk_add_mk, Prod.mk_sub_mk]]
  exact pyRound_100000

lemma netNext_sqC : pmul ((((0.5 : ℝ), (0 : ℝ)) : Pt) - centroid sqC) 100000 =
    ((50000 : ℝ), (0 : ℝ)) := by
  rw [centroid_sqC]
  norm_num [pmul, Prod.mk_sub_mk, Prod.ext_iff]

lemma solve2_sqC :
    solve2
      (pyRound (100000 * (pdiv (sqC.p1 + sqC.p2) 2 - centroid sqC).1),
       pyRound (100000 * (pdiv (sqC.p1 + sqC.p2) 2 - centroid sqC).2))
      (pyRound (100000 * (pdiv (sqC.p0 + sqC.p1) 2 - centroid sqC).1),
       pyRound (100000 * (pdiv (sqC.p0 + sqC.p1) 2 - centroid sqC).2))
      (pmul ((((0.5 : ℝ), (0 : ℝ)) : Pt) - centroid sqC) 100000) =
      some ((0 : ℝ), (0.5 : ℝ)) := by
  rw [netX_sqC_fst, netX_sqC_snd, netY_sqC_fst, netY_sqC_snd, netNext_sqC]
  simp only [solve2]
  rw [if_neg (by push_cast; norm_num)]
  push_cast
  norm_num [Prod.ext_iff]

lemma teacherAction_gNear_eval :
    teacherAction gNear Feedback.student sqC [sqC] false =
      some (Slot.arr (clampPair ((0 : ℝ), (0.5 : ℝ))),
        (vnorm (sqC.p0 - sqC.p1) * 11.13 * 10000 - 40) / (400 - 40), 0) := by
  have hpts : intersectionPts gNear Feedback.student sqC [sqC] (centroid sqC) (centroid sqC) =
      [((0.5 : ℝ), (0 : ℝ))] := rfl
  have hv : vnorm ((((0.5 : ℝ), (0 : ℝ)) : Pt) - centroid sqC) = 0.5 := by
    rw [centroid_sqC, show (((0.5 : ℝ), (0 : ℝ)) : Pt) - ((0 : ℝ), (0 : ℝ)) =
      ((0.5 : ℝ), (0 : ℝ)) by norm_num [Prod.mk_sub_mk, Prod.ext_iff]]
    exact vnorm_eval (by norm_num) (by norm_num)
  have hpt : pickTarget (intersectionPts gNear Feedback.student sqC [sqC]
      (centroid sqC) (centroid sqC)) (centroid sqC) = some ((0.5 : ℝ), (0 : ℝ)) := by
    rw [hpts]
    exact pickTarget_single_some _ _ (by rw [hv]; norm_num)
  exact teacherAction_single_act gNear Feedback.student sqC rfl ((0.5 : ℝ), (0 : ℝ))
    ((0 : ℝ), (0.5 : ℝ)) hpt solve2_sqC

/-- Witness for C4 at a concrete run of the oracle. -/
theorem claim4_witness :
    max |(clampPair ((0 : ℝ), (0.5 : ℝ))).1| |(clampPair ((0 : ℝ), (0.5 : ℝ))).2| ≤ 1 ∧
    ∃ u, (∃ nx ny b, solve2 nx ny b = some u) ∧
      clampPair ((0 : ℝ), (0.5 : ℝ)) = clampPair u ∧
      (clampPair ((0 : ℝ), (0.5 : ℝ))).1 = u.1 / max (max |u.1| |u.2|) 1 ∧
      (clampPair ((0 : ℝ), (0.5 : ℝ))).2 = u.2 / max (max |u.1| |u.2|) 1 ∧
      ∃ k : ℝ, 0 < k ∧ (clampPair ((0 : ℝ), (0.5 : ℝ))).1 = k * u.1 ∧
        (clampPair ((0 : ℝ), (0.5 : ℝ))).2 = k * u.2 :=
  claim4_clamp gNear Feedback.student sqC [sqC] (clampPair ((0 : ℝ), (0.5 : ℝ)))
    ((vnorm (sqC.p0 - sqC.p1) * 11.13 * 10000 - 40) / (400 - 40)) 0
    teacherAction_gNear_eval (by norm_num)

/-- Witness for C10 at a concrete terminal run of the oracle. -/
theorem claim10_witness :
    notIntGuard ((Slot.arr (0, 0),
      (vnorm (sqC.p0 - sqC.p1) * 11.13 * 10000 - 40) / (400 - 40),
      (0 : ℝ)) : Slot × ℝ × ℝ).1 = true ∧
    (∃ p, ((Slot.arr (0, 0),
      (vnorm (sqC.p0 - sqC.p1) * 11.13 * 10000 - 40) / (400 - 40),
      (0 : ℝ)) : Slot × ℝ × ℝ).1 = Slot.arr p) ∧
    ((true = true ∨ 0.5 < ((Slot.arr (0, 0),
      (vnorm (sqC.p0 - sqC.p1) * 11.13 * 10000 - 40) / (400 - 40),
      (0 : ℝ)) : Slot × ℝ × ℝ).2.2) →
      ((Slot.arr (0, 0),
        (vnorm (sqC.p0 - sqC.p1) * 11.13 * 10000 - 40) / (400 - 40),
        (0 : ℝ)) : Slot × ℝ × ℝ).1 = Slot.arr (0, 0)) :=
  claim10_guard_always_true gNear Feedback.teacher sqC [sqC] true _
    (teacherAction_single_terminal gNear Feedback.teacher sqC rfl)

/-! ## Claim C8 -/

lemma rollStep_mono (n K : ℕ) (prog : Fin n → ℝ) (t : ℕ) (s : RollState n) (i : Fin n)
    (h : s.ended i = true) : (rollStep n K prog t s).ended i = true := by
  simp [rollStep, h]

lemma rollStep_frozen (n K : ℕ) (prog : Fin n → ℝ) (t : ℕ) (s : RollState n) (i : Fin n)
    (h : s.ended i = true) : (rollStep n K prog t s).traj i = s.traj i := by
  simp [rollStep, appendLog, h]

lemma rollFrom_count_le (n K : ℕ) (prog : ℕ → Fin n → ℝ) :
    ∀ (r t : ℕ) (s : RollState n), (rollFrom n K prog r t s).2 ≤ r := by
  intro r
  induction r with
  | zero => intro t s; simp [rollFrom]
  | succ r ih =>
    intro t s
    simp only [rollFrom]
    by_cases hall : ∀ j, (rollStep n K (prog t) t s).ended j = true
    · rw [if_pos hall]
      exact Nat.le_add_left 1 r
    · rw [if_neg hall]
      exact Nat.succ_le_succ (ih (t + 1) _)

lemma rollFrom_early_exit (n K : ℕ) (prog : ℕ → Fin n → ℝ) (r t : ℕ) (s : RollState n)
    (hall : ∀ i, (rollStep n K (prog t) t s).ended i = true) :
    rollFrom n K prog (r + 1) t s = (rollStep n K (prog t) t s, 1) := by
  simp only [rollFrom]
  rw [if_pos hall]

lemma rollFrom_mono (n K : ℕ) (prog : ℕ → Fin n → ℝ) :
    ∀ (r t : ℕ) (s : RollState n) (i : Fin n),
      s.ended i = true → (rollFrom n K prog r t s).1.ended i = true := by
  intro r
  induction r with
  | zero => intro t s i h; simpa [rollFrom] using h
  | succ r ih =>
    intro t s i h
    simp only [rollFrom]
    by_cases hall : ∀ j, (rollStep n K (prog t) t s).ended j = true
    · rw [if_pos hall]
      exact hall i
    · rw [if_neg hall]
      exact ih (t + 1) _ i (rollStep_mono n K (prog t) t s i h)

lemma rollFrom_frozen (n K : ℕ) (prog : ℕ → Fin n → ℝ) :
    ∀ (r t : ℕ) (s : RollState n) (i : Fin n),
      s.ended i = true → (rollFrom n K prog r t s).1.traj i = s.traj i := by
  intro r
  induction r with
  | zero => intro t s i h; simp [rollFrom]
  | succ r ih =>
    intro t s i h
    simp only [rollFrom]
    by_cases hall : ∀ j, (rollStep n K (prog t) t s).ended j = true
    · rw [if_pos hall]
      exact rollStep_frozen n K (prog t) t s i h
    · rw [if_neg hall]
      rw [ih (t + 1) _ i (rollStep_mono n K (prog t) t s i h)]
      exact rollStep_frozen n K (prog t) t s i h

/-- Claim C8: the step loop over a batch of `n` samples with budget `K`
executes at most `K` iterations; it stops right after the iteration at whose
end every sample is ended (the `ended.all()` break); an `ended` flag, once
true, stays true through every later iteration (so it transitions from False
to True at most once and never back); and once a sample is ended none of its
trajectory records — actions, gt_actions, gt_progress, progress,
path_corners — ever receives another append. -/
theorem claim8_rollout_invariants (n K : ℕ) (prog : ℕ → Fin n → ℝ) (s0 : RollState n) :
    (rolloutLoop n K prog s0).2 ≤ K ∧
    (∀ (r t : ℕ) (s : RollState n), (∀ i, (rollStep n K (prog t) t s).ended i = true) →
      rollFrom n K prog (r + 1) t s = (rollStep n K (prog t) t s, 1)) ∧
    (∀ (r t : ℕ) (s : RollState n) (i : Fin n),
      s.ended i = true → (rollFrom n K prog r t s).1.ended i = true) ∧
    (∀ (r t : ℕ) (s : RollState n) (i : Fin n),
      s.ended i = true → (rollFrom n K prog r t s).1.traj i = s.traj i) :=
  ⟨rollFrom_count_le n K prog K 0 s0,
   fun r t s hall => rollFrom_early_exit n K prog r t s hall,
   rollFrom_mono n K prog,
   rollFrom_frozen n K prog⟩

end TGGAT
